import Mathlib

/-!
Shallow embedding of the AI matching engine
(`backend/ai/ai_matching.py` of the Skill_forge repository).

Numeric conventions: Python floats are idealised as exact rationals (`ℚ`)
wherever the source only adds, multiplies and divides, and as real numbers
(`ℝ`) where the source takes square roots (cosine similarity) — Python's
`round(x, n)` is modelled as exact round-half-to-even.  MongoDB documents
become Lean structures; a missing optional text field is the empty string
(Python code only ever tests those fields for truthiness); `_id` and
`embedding` become `Option` fields.  Fallible external calls (the
sentence-transformer provider, `find_one`, `update_one`) are governed by an
environment `Env`: the provider is a function `String → Option Vec` (`none`
models a raised exception) and each store operation site has a failure flag.
Each stateful operation returns `DB × Nat × Except Unit α`: the record store
after the call, the number of embedding-provider invocations, and either the
produced value or `Except.error ()` for a Python exception escaping the
operation.
-/

/-- An embedding vector (`np.ndarray` / Mongo list of floats). -/
abbrev Vec := List ℚ

/-- One entry of a candidate's `skills` list: `{name, level}`. -/
structure Skill where
  name : String
  level : ℤ
  deriving DecidableEq, Repr

/-- One entry of a candidate's `experience` list (only `role` and
`description` are read by the engine; a missing key is `""`). -/
structure Experience where
  role : String
  description : String
  deriving DecidableEq, Repr

/-- One entry of a candidate's `education` list. -/
structure Education where
  degree : String
  institution : String
  deriving DecidableEq, Repr

/-- One entry of a candidate's `portfolio` list. -/
structure PortfolioItem where
  title : String
  description : String
  deriving DecidableEq, Repr

/-- A candidate document as stored in the `candidates` collection (and as
passed to the engine).  `id` models `_id`; the engine never reads the
password field, and `find` projections drop it, so it is omitted. -/
structure Candidate where
  id : Option Nat
  email : String
  bio : String
  skills : List Skill
  experience : List Experience
  education : List Education
  portfolio : List PortfolioItem
  embedding : Option Vec
  deriving DecidableEq, Repr

/-- A job document as stored in the `jobs` collection. -/
structure Job where
  id : Option Nat
  title : String
  company : String
  description : String
  required_skills : List String
  job_type : String
  location : String
  source : Option String
  embedding : Option Vec
  deriving DecidableEq, Repr

/-- The record store: the two MongoDB collections the engine touches. -/
structure DB where
  candidates : List Candidate
  jobs : List Job
  deriving DecidableEq, Repr

/-- External-world behaviour: the embedding provider's response per text
(`none` = the provider raises), and one failure flag per store-operation
site (`find_one` / `update_one` on each collection); a set flag makes every
call at that site raise. -/
structure Env where
  encodeRes : String → Option Vec
  candFindFails : Bool
  jobFindFails : Bool
  candUpdateFails : Bool
  jobUpdateFails : Bool

/-- `find_one({"_id": i})` on the candidates collection: first match wins. -/
def findCandById (db : DB) (i : Nat) : Option Candidate :=
  db.candidates.find? (fun c => c.id = some i)

/-- `find_one({"email": e})` on the candidates collection. -/
def findCandByEmail (db : DB) (e : String) : Option Candidate :=
  db.candidates.find? (fun c => c.email = e)

/-- `find_one({"_id": i})` on the jobs collection. -/
def findJobById (db : DB) (i : Nat) : Option Job :=
  db.jobs.find? (fun j => j.id = some i)

/-- `update_one({"_id": i}, {"$set": {"embedding": v}}, upsert=False)` on the
candidates collection: sets the embedding of the first matching document,
no-op when no document matches. -/
def updateCandEmb (db : DB) (oid : Option Nat) (v : Vec) : DB :=
  match oid with
  | none => db
  | some i =>
      { db with candidates := updateFirst db.candidates i v }
where
  updateFirst : List Candidate → Nat → Vec → List Candidate
    | [], _, _ => []
    | c :: cs, i, v =>
        if c.id = some i then { c with embedding := some v } :: cs
        else c :: updateFirst cs i v

/-- `update_one` on the jobs collection (see `updateCandEmb`). -/
def updateJobEmb (db : DB) (oid : Option Nat) (v : Vec) : DB :=
  match oid with
  | none => db
  | some i =>
      { db with jobs := updateFirst db.jobs i v }
where
  updateFirst : List Job → Nat → Vec → List Job
    | [], _, _ => []
    | j :: js, i, v =>
        if j.id = some i then { j with embedding := some v } :: js
        else j :: updateFirst js i v

/-- Python truthiness of an optional embedding field: present and non-empty. -/
def embTruthy : Option Vec → Bool
  | some (_ :: _) => true
  | _ => false

/-- Python `int()` truncation (toward zero) of an exact rational. -/
def pyTrunc (q : ℚ) : ℤ :=
  if 0 ≤ q then ⌊q⌋ else -⌊-q⌋

/-- The proficiency-weighted skill phrase `f"{name} ({int(level/10)} stars)"`. -/
def skillPhrase (s : Skill) : String :=
  s.name ++ " (" ++ toString (pyTrunc ((s.level : ℚ) / 10)) ++ " stars)"

/-- `AIMatchingEngine._extract_candidate_text`: concatenated text
representation of a candidate profile, single-space joined and trimmed.
Note that a non-empty `skills` list contributes its joined phrase even when
every skill is filtered out by the `s.get("name")` guard (the join of an
empty list is `""` and is still appended, exactly as in the source). -/
def _extract_candidate_text (c : Candidate) : String :=
  let parts : List String :=
    (if c.bio ≠ "" then [c.bio] else []) ++
    (if c.skills ≠ [] then
      [String.intercalate " "
        ((c.skills.filter (fun s => s.name ≠ "")).map skillPhrase)]
     else []) ++
    (c.experience.flatMap (fun e =>
      (if e.role ≠ "" then [e.role] else []) ++
      (if e.description ≠ "" then [e.description] else []))) ++
    (c.education.flatMap (fun e =>
      (if e.degree ≠ "" then [e.degree] else []) ++
      (if e.institution ≠ "" then [e.institution] else []))) ++
    (c.portfolio.flatMap (fun p =>
      (if p.title ≠ "" then [p.title] else []) ++
      (if p.description ≠ "" then [p.description] else [])))
  (String.intercalate " " parts).trim

/-- `AIMatchingEngine._extract_job_text`. -/
def _extract_job_text (j : Job) : String :=
  let parts : List String :=
    (if j.title ≠ "" then [j.title] else []) ++
    (if j.company ≠ "" then [j.company] else []) ++
    (if j.description ≠ "" then [j.description] else []) ++
    (if j.required_skills ≠ [] then
      [String.intercalate " " j.required_skills] else []) ++
    (if j.job_type ≠ "" then [j.job_type] else []) ++
    (if j.location ≠ "" then [j.location] else [])
  (String.intercalate " " parts).trim

/-- The candidate skill dictionary lookup
`{s["name"].lower(): s["level"] for s in skills if s.get("name")}[k]`:
a dict comprehension keeps the last entry for each key, so the lookup scans
from the right for a skill with a truthy name whose lowercased name is `k`. -/
def lookupLevel (skills : List Skill) (k : String) : Option ℤ :=
  (skills.reverse.find? (fun s => s.name ≠ "" ∧ s.name.toLower = k)).map
    (fun s => s.level)

/-- `AIMatchingEngine._calculate_skill_match`: proficiency-weighted overlap
between the job's required skills and the candidate's skill dictionary. -/
def _calculate_skill_match (c : Candidate) (j : Job) : ℚ :=
  if j.required_skills = [] then 0
  else
    if c.skills = [] then 0
    else
      let required := j.required_skills.map String.toLower
      let acc : ℚ × ℚ := required.foldl
        (fun tm k =>
          (tm.1 + 1,
           match lookupLevel c.skills k with
           | some l => tm.2 + (l : ℚ) / 100
           | none => tm.2))
        (0, 0)
      if acc.1 = 0 then 0 else acc.2 / acc.1

/-- Dot product of two rational vectors (`np.dot` on equal-length arrays). -/
def dotQ (a b : Vec) : ℚ :=
  (List.zipWith (fun x y => x * y) a b).sum

/-- `AIMatchingEngine._cosine_similarity`: safe cosine similarity, `0.0`
when either vector is absent or the product of magnitudes is zero.  Square
roots force the result type `ℝ`. -/
noncomputable def _cosine_similarity (a b : Option Vec) : ℝ :=
  match a, b with
  | none, _ => 0
  | _, none => 0
  | some a, some b =>
      let denom : ℝ := Real.sqrt ((dotQ a a : ℚ) : ℝ) * Real.sqrt ((dotQ b b : ℚ) : ℝ)
      if denom = 0 then 0 else ((dotQ a b : ℚ) : ℝ) / denom

/-- `AIMatchingEngine._calculate_experience_boost`:
`min(len(experience) * 0.05, 0.2)`, `0.0` for an empty (falsy) list. -/
def _calculate_experience_boost (c : Candidate) : ℚ :=
  if c.experience = [] then 0
  else min ((c.experience.length : ℚ) * (5 / 100)) (2 / 10)

/-- Round half to even on an exact rational (Python `round` idealised). -/
def rheQ (x : ℚ) : ℤ :=
  if x - ⌊x⌋ < 1 / 2 then ⌊x⌋
  else if (1 : ℚ) / 2 < x - ⌊x⌋ then ⌊x⌋ + 1
  else if Even ⌊x⌋ then ⌊x⌋ else ⌊x⌋ + 1

/-- Python `round(x, 1)` on an exact rational. -/
def pyRound1 (x : ℚ) : ℚ := (rheQ (x * 10) : ℚ) / 10

/-- Round half to even on a real number. -/
noncomputable def rheR (x : ℝ) : ℤ :=
  if x - ⌊x⌋ < 1 / 2 then ⌊x⌋
  else if (1 : ℝ) / 2 < x - ⌊x⌋ then ⌊x⌋ + 1
  else if Even ⌊x⌋ then ⌊x⌋ else ⌊x⌋ + 1

/-- Python `round(x, 3)` on a real number. -/
noncomputable def pyRound3 (x : ℝ) : ℝ := (rheR (x * 1000) : ℝ) / 1000

/-- `AIMatchingEngine.encode_text`: `None` for empty text, otherwise one
provider invocation whose failure raises.  Returns the call count paired
with the outcome. -/
def encode_text (env : Env) (t : String) : Nat × Except Unit (Option Vec) :=
  if t = "" then (0, .ok none)
  else
    match env.encodeRes t with
    | none => (1, .error ())
    | some v => (1, .ok (some v))

/-- `AIMatchingEngine.embed_and_store_candidate`: extract text (empty text
returns `None` without touching the provider), encode, then
`update_one({"_id": candidate["_id"]}, ...)`.  Reading `candidate["_id"]`
on a record without `_id` raises `KeyError`; a set update-failure flag also
raises.  The provider call has already happened in both raising cases. -/
def embed_and_store_candidate (env : Env) (db : DB) (c : Candidate) :
    DB × Nat × Except Unit (Option Vec) :=
  let t := _extract_candidate_text c
  if t = "" then (db, 0, .ok none)
  else
    match env.encodeRes t with
    | none => (db, 1, .error ())
    | some v =>
        match c.id with
        | none => (db, 1, .error ())
        | some _ =>
            if env.candUpdateFails then (db, 1, .error ())
            else (updateCandEmb db c.id v, 1, .ok (some v))

/-- `AIMatchingEngine.embed_and_store_job` (see
`embed_and_store_candidate`). -/
def embed_and_store_job (env : Env) (db : DB) (j : Job) :
    DB × Nat × Except Unit (Option Vec) :=
  let t := _extract_job_text j
  if t = "" then (db, 0, .ok none)
  else
    match env.encodeRes t with
    | none => (db, 1, .error ())
    | some v =>
        match j.id with
        | none => (db, 1, .error ())
        | some _ =>
            if env.jobUpdateFails then (db, 1, .error ())
            else (updateJobEmb db j.id v, 1, .ok (some v))

/-- The `try:` block of `calculate_match_score` that resolves the candidate
embedding: with a truthy `_id`, look the record up (a truthy stored
embedding is returned unchanged, otherwise compute and persist); without an
`_id`, encode the extracted text directly. -/
def tryResolveCand (env : Env) (db : DB) (c : Candidate) :
    DB × Nat × Except Unit (Option Vec) :=
  match c.id with
  | some i =>
      if env.candFindFails then (db, 0, .error ())
      else
        match findCandById db i with
        | some r =>
            if embTruthy r.embedding then (db, 0, .ok r.embedding)
            else embed_and_store_candidate env db c
        | none => embed_and_store_candidate env db c
  | none =>
      let (n, r) := encode_text env (_extract_candidate_text c)
      (db, n, r)

/-- The matching `try:` block for the job embedding. -/
def tryResolveJob (env : Env) (db : DB) (j : Job) :
    DB × Nat × Except Unit (Option Vec) :=
  match j.id with
  | some i =>
      if env.jobFindFails then (db, 0, .error ())
      else
        match findJobById db i with
        | some r =>
            if embTruthy r.embedding then (db, 0, .ok r.embedding)
            else embed_and_store_job env db j
        | none => embed_and_store_job env db j
  | none =>
      let (n, r) := encode_text env (_extract_job_text j)
      (db, n, r)

/-- Candidate-embedding resolution with its `except Exception:` fallback:
any exception in the `try:` block is recovered by a direct
`encode_text(cand_text)` call — whose own failure is NOT caught. -/
def resolveCandEmb (env : Env) (db : DB) (c : Candidate) :
    DB × Nat × Except Unit (Option Vec) :=
  match tryResolveCand env db c with
  | (db1, n1, .ok e) => (db1, n1, .ok e)
  | (db1, n1, .error _) =>
      let (n2, r2) := encode_text env (_extract_candidate_text c)
      (db1, n1 + n2, r2)

/-- Job-embedding resolution with its `except Exception:` fallback. -/
def resolveJobEmb (env : Env) (db : DB) (j : Job) :
    DB × Nat × Except Unit (Option Vec) :=
  match tryResolveJob env db j with
  | (db1, n1, .ok e) => (db1, n1, .ok e)
  | (db1, n1, .error _) =>
      let (n2, r2) := encode_text env (_extract_job_text j)
      (db1, n1 + n2, r2)

/-- Clamp to `[0,1]`: `max(0.0, min(1.0, x))`. -/
noncomputable def clamp01 (x : ℝ) : ℝ := max 0 (min 1 x)

/-- `AIMatchingEngine.calculate_match_score`: `0.0` for an unscorable pair,
otherwise resolve both embeddings (uncaught fallback failures propagate)
and return `round(clamp(0.6*semantic + 0.3*skill + 0.1*exp, 0, 1), 3)`. -/
noncomputable def calculate_match_score (env : Env) (db : DB)
    (c : Candidate) (j : Job) : DB × Nat × Except Unit ℝ :=
  let cand_text := _extract_candidate_text c
  let job_text := _extract_job_text j
  if cand_text = "" ∨ job_text = "" then (db, 0, .ok 0)
  else
    match resolveCandEmb env db c with
    | (db1, n1, .error _) => (db1, n1, .error ())
    | (db1, n1, .ok ce) =>
        match resolveJobEmb env db1 j with
        | (db2, n2, .error _) => (db2, n1 + n2, .error ())
        | (db2, n2, .ok je) =>
            let semantic := _cosine_similarity ce je
            let score := pyRound3 (clamp01
              ((6 / 10) * semantic
                + (3 / 10) * ((_calculate_skill_match c j : ℚ) : ℝ)
                + (1 / 10) * ((_calculate_experience_boost c : ℚ) : ℝ)))
            (db2, n1 + n2, .ok score)

/-- Stable insertion step for a descending sort on a real-valued key: the
inserted element (earlier in the original order) goes in front of the first
element whose key is not larger, so ties keep the original order —
`list.sort(key=..., reverse=True)` in Python is stable in this sense. -/
noncomputable def insertByScore {α : Type} (key : α → ℝ) (x : α) :
    List α → List α
  | [] => [x]
  | y :: ys =>
      if key y ≤ key x then x :: y :: ys else y :: insertByScore key x ys

/-- Stable descending sort by a real-valued key. -/
noncomputable def sortByScoreDesc {α : Type} (key : α → ℝ) :
    List α → List α
  | [] => []
  | x :: xs => insertByScore key x (sortByScoreDesc key xs)

/-- The Mongo query `{"source": source} if source else {}` of
`find_matching_jobs_for_candidate`: an absent or empty (falsy) source means
no filtering; otherwise keep the jobs whose `source` field equals it. -/
def sourceFilter (src : Option String) (jobs : List Job) : List Job :=
  match src with
  | none => jobs
  | some s => if s = "" then jobs else jobs.filter (fun j => j.source = some s)

/-- The per-job scoring loop of `find_matching_jobs_for_candidate`: scores
each job against the candidate in retrieval order, threading the store.  A
`None` candidate (a failed re-fetch) raises `AttributeError` at the first
iteration, exactly as the Python loop would. -/
noncomputable def scoreJobs (env : Env) (db : DB) (co : Option Candidate) :
    List Job → DB × Nat × Except Unit (List (Job × ℝ))
  | [] => (db, 0, .ok [])
  | j :: js =>
      match co with
      | none => (db, 0, .error ())
      | some c =>
          match calculate_match_score env db c j with
          | (db1, n1, .error _) => (db1, n1, .error ())
          | (db1, n1, .ok s) =>
              match scoreJobs env db1 co js with
              | (db2, n2, .error _) => (db2, n1 + n2, .error ())
              | (db2, n2, .ok l) => (db2, n1 + n2, .ok ((j, s) :: l))

/-- `AIMatchingEngine.find_matching_jobs_for_candidate`: load the candidate
by email (missing → `[]`), lazily compute and persist its embedding when the
stored one is not truthy (failures here are uncaught), re-fetch the record,
score every (source-filtered) job, sort stably by descending score and
truncate to `top_n`. -/
noncomputable def find_matching_jobs_for_candidate (env : Env) (db : DB)
    (candidate_email : String) (top_n : Nat) (src : Option String) :
    DB × Nat × Except Unit (List (Job × ℝ)) :=
  if env.candFindFails then (db, 0, .error ())
  else
    match findCandByEmail db candidate_email with
    | none => (db, 0, .ok [])
    | some cand =>
        let step : DB × Nat × Except Unit (Option Candidate) :=
          if embTruthy cand.embedding then (db, 0, .ok (some cand))
          else
            match embed_and_store_candidate env db cand with
            | (db1, n1, .error _) => (db1, n1, .error ())
            | (db1, n1, .ok _) =>
                match cand.id with
                | none => (db1, n1, .error ())
                | some i =>
                    if env.candFindFails then (db1, n1, .error ())
                    else (db1, n1, .ok (findCandById db1 i))
        match step with
        | (db1, n1, .error _) => (db1, n1, .error ())
        | (db1, n1, .ok co) =>
            match scoreJobs env db1 co (sourceFilter src db1.jobs) with
            | (db2, n2, .error _) => (db2, n1 + n2, .error ())
            | (db2, n2, .ok scored) =>
                (db2, n1 + n2,
                 .ok ((sortByScoreDesc (fun x => x.2) scored).take top_n))

/-- Modelled from the spec: the identity codec (`bson.ObjectId`) used for
string job identities is an external dependency of the repository; a string
parses iff it is 24 hexadecimal characters, and then denotes the identity
with that hexadecimal value. -/
def parseObjectId (s : String) : Option Nat :=
  if s.length = 24 ∧ s.toList.all (fun c => c.isDigit
      ∨ ('a' ≤ c ∧ c ≤ 'f') ∨ ('A' ≤ c ∧ c ≤ 'F')) then
    some (s.toList.foldl (fun acc c =>
      16 * acc +
        (if c.isDigit then c.toNat - 48
         else if 'a' ≤ c then c.toNat - 87 else c.toNat - 55)) 0)
  else none

/-- The per-candidate loop of `find_matching_candidates_for_job`: for each
candidate in retrieval order, lazily embed-and-persist when its stored
embedding is not truthy (failures here are NOT caught and propagate),
re-fetch, then score against the job.  A `None` job or a `None` re-fetched
candidate raises `AttributeError` inside `calculate_match_score`, so only
when the loop actually reaches that call. -/
noncomputable def scoreCandidates (env : Env) (db : DB) (jo : Option Job) :
    List Candidate → DB × Nat × Except Unit (List (Candidate × ℝ))
  | [] => (db, 0, .ok [])
  | c :: cs =>
      let step : DB × Nat × Except Unit (Option Candidate) :=
        if embTruthy c.embedding then (db, 0, .ok (some c))
        else
          match embed_and_store_candidate env db c with
          | (db1, n1, .error _) => (db1, n1, .error ())
          | (db1, n1, .ok _) =>
              match c.id with
              | none => (db1, n1, .error ())
              | some i =>
                  if env.candFindFails then (db1, n1, .error ())
                  else (db1, n1, .ok (findCandById db1 i))
      match step with
      | (db1, n1, .error _) => (db1, n1, .error ())
      | (db1, n1, .ok co) =>
          match co, jo with
          | none, _ => (db1, n1, .error ())
          | _, none => (db1, n1, .error ())
          | some c1, some j =>
              match calculate_match_score env db1 c1 j with
              | (db2, n2, .error _) => (db2, n1 + n2, .error ())
              | (db2, n2, .ok s) =>
                  match scoreCandidates env db2 jo cs with
                  | (db3, n3, .error _) => (db3, n1 + n2 + n3, .error ())
                  | (db3, n3, .ok l) =>
                      (db3, n1 + n2 + n3, .ok ((c1, s) :: l))

/-- `AIMatchingEngine.find_matching_candidates_for_job`: an invalid job-id
string, a failing job lookup (both caught by the `try/except`) or an absent
job all yield the empty list; otherwise ensure the job embedding, score
every candidate, sort stably by descending score and truncate. -/
noncomputable def find_matching_candidates_for_job (env : Env) (db : DB)
    (job_id : String) (top_n : Nat) :
    DB × Nat × Except Unit (List (Candidate × ℝ)) :=
  match parseObjectId job_id with
  | none => (db, 0, .ok [])
  | some i =>
      if env.jobFindFails then (db, 0, .ok [])
      else
        match findJobById db i with
        | none => (db, 0, .ok [])
        | some job =>
            let step : DB × Nat × Except Unit (Option Job) :=
              if embTruthy job.embedding then (db, 0, .ok (some job))
              else
                match embed_and_store_job env db job with
                | (db1, n1, .error _) => (db1, n1, .error ())
                | (db1, n1, .ok _) =>
                    match job.id with
                    | none => (db1, n1, .error ())
                    | some i2 =>
                        if env.jobFindFails then (db1, n1, .error ())
                        else (db1, n1, .ok (findJobById db1 i2))
            match step with
            | (db1, n1, .error _) => (db1, n1, .error ())
            | (db1, n1, .ok jo) =>
                match scoreCandidates env db1 jo db1.candidates with
                | (db2, n2, .error _) => (db2, n1 + n2, .error ())
                | (db2, n2, .ok scored) =>
                    (db2, n1 + n2,
                     .ok ((sortByScoreDesc (fun x => x.2) scored).take top_n))

/-- Python `str.title()` restricted to the engine's use: a character is
uppercased when the previous character is not alphabetic, lowercased
otherwise. -/
def pyTitle (s : String) : String :=
  ⟨(s.toList.foldl
      (fun (acc : List Char × Bool) c =>
        if c.isAlpha then
          ((if acc.2 then c.toLower else c.toUpper) :: acc.1, true)
        else (c :: acc.1, false))
      ([], false)).1.reverse⟩

/-- `AIMatchingEngine._generate_recommendations`: one fixed-template
suggestion per missing skill, capped at five. -/
def _generate_recommendations (missing_skills : List String) : List String :=
  (missing_skills.take 5).map
    (fun s => "Consider learning " ++ pyTitle s
      ++ " through online courses or certifications")

/-- Lexicographic comparison of strings by code point (Python `<`). -/
def strLtB (a b : String) : Bool :=
  go a.toList b.toList
where
  go : List Char → List Char → Bool
    | [], [] => false
    | [], _ :: _ => true
    | _ :: _, [] => false
    | x :: xs, y :: ys =>
        if x.val < y.val then true
        else if y.val < x.val then false
        else go xs ys

/-- Ascending insertion by `strLtB` (Python `sorted` on unique strings). -/
def insertStr (x : String) : List String → List String
  | [] => [x]
  | y :: ys => if strLtB y x then y :: insertStr x ys else x :: y :: ys

/-- Ascending sort by `strLtB`. -/
def sortStr : List String → List String
  | [] => []
  | x :: xs => insertStr x (sortStr xs)

/-- The result of `analyze_skill_gaps`: either an `{"error": ...}` payload
(two distinct sentinels) or the full report dictionary. -/
inductive GapResult where
  | invalidJobId
  | notFound
  | report (job_title : String) (match_percentage : ℚ)
      (matching_skills missing_skills : List String)
      (total_required : Nat) (recommendations : List String)
  deriving DecidableEq, Repr

/-- The lowercased possessed-skill pool of `analyze_skill_gaps` (note: NO
`s.get("name")` guard here, unlike `_calculate_skill_match` — a nameless
skill contributes the empty string). -/
def gapCandSkills (c : Candidate) : List String :=
  c.skills.map (fun s => s.name.toLower)

/-- The lowercased required-skill pool of `analyze_skill_gaps`. -/
def gapReqSkills (j : Job) : List String :=
  j.required_skills.map String.toLower

/-- `AIMatchingEngine.analyze_skill_gaps`: case-insensitive set difference
and intersection of required vs. possessed skills, coverage percentage
rounded to one decimal, and up to five recommendations. -/
def analyze_skill_gaps (env : Env) (db : DB) (candidate_email : String)
    (job_id : String) : Except Unit GapResult :=
  if env.candFindFails then .error ()
  else
    let cand? := findCandByEmail db candidate_email
    match parseObjectId job_id with
    | none => .ok .invalidJobId
    | some i =>
        if env.jobFindFails then .ok .invalidJobId
        else
          match cand?, findJobById db i with
          | some c, some j =>
              let possessed := gapCandSkills c
              let required := (gapReqSkills j).dedup
              let missing :=
                sortStr (required.filter (fun s => ¬ s ∈ possessed))
              let matching :=
                sortStr (required.filter (fun s => s ∈ possessed))
              let pct : ℚ :=
                if 0 < required.length then
                  pyRound1 (((matching.length : ℚ) / required.length) * 100)
                else 0
              .ok (.report j.title pct matching missing required.length
                (_generate_recommendations missing))
          | _, _ => .ok .notFound

/-- Per-required-skill contribution to the matched weight: `level/100` when
the candidate's skill dictionary has the (lowercased) key, else `0`. -/
def skillContribution (c : Candidate) (k : String) : ℚ :=
  match lookupLevel c.skills k with
  | some l => (l : ℚ) / 100
  | none => 0

/-- A candidate document with every optional field empty. -/
def baseCand : Candidate :=
  { id := none, email := "", bio := "", skills := [], experience := [],
    education := [], portfolio := [], embedding := none }

/-- A job document with every optional field empty. -/
def baseJob : Job :=
  { id := none, title := "", company := "", description := "",
    required_skills := [], job_type := "", location := "", source := none,
    embedding := none }

/-- A healthy environment: the provider answers every text with `[1]` and
no store operation fails. -/
def envOk : Env :=
  { encodeRes := fun _ => some [1], candFindFails := false,
    jobFindFails := false, candUpdateFails := false, jobUpdateFails := false }

/-- An environment whose embedding provider raises on every call. -/
def envFail : Env :=
  { encodeRes := fun _ => none, candFindFails := false,
    jobFindFails := false, candUpdateFails := false, jobUpdateFails := false }

theorem dotQ_self_nonneg (a : Vec) : 0 ≤ dotQ a a := by
  induction a with
  | nil => simp [dotQ]
  | cons x xs ih =>
      have hx : (0 : ℚ) ≤ x * x := mul_self_nonneg x
      simpa [dotQ, List.zipWith] using add_nonneg hx ih

theorem dotQ_self_eq_zero (a : Vec) : dotQ a a = 0 ↔ ∀ x ∈ a, x = 0 := by
  induction a with
  | nil => simp [dotQ]
  | cons x xs ih =>
      have hx : (0 : ℚ) ≤ x * x := mul_self_nonneg x
      have hxs := dotQ_self_nonneg xs
      constructor
      · intro h y hy
        have hsum : x * x + dotQ xs xs = 0 := by
          simpa [dotQ, List.zipWith] using h
        have hx0 : x * x = 0 := le_antisymm (by linarith) hx
        have hrest : dotQ xs xs = 0 := by linarith
        rcases List.mem_cons.mp hy with hy | hy
        · rw [hy]
          exact mul_self_eq_zero.mp hx0
        · exact (ih.mp hrest) y hy
      · intro h
        have hx0 : x = 0 := h x (by simp)
        have hrest : dotQ xs xs = 0 := ih.mpr (fun y hy => h y (by simp [hy]))
        simp [dotQ, List.zipWith, hx0]
        simpa [dotQ] using hrest

/-- C8: `_cosine_similarity` returns `0.0` whenever either vector is absent
or either has zero magnitude (all components zero), so no division by zero
occurs; and for every non-zero vector its cosine similarity with itself
equals `1.0`. -/
theorem C8_cosine :
    (∀ b, _cosine_similarity none b = 0)
    ∧ (∀ a, _cosine_similarity a none = 0)
    ∧ (∀ a b : Vec, (∀ x ∈ a, x = 0) →
        _cosine_similarity (some a) (some b) = 0)
    ∧ (∀ a b : Vec, (∀ x ∈ b, x = 0) →
        _cosine_similarity (some a) (some b) = 0)
    ∧ (∀ a : Vec, (∃ x ∈ a, x ≠ 0) →
        _cosine_similarity (some a) (some a) = 1) := by
  refine ⟨fun b => by cases b <;> rfl, fun a => by cases a <;> rfl, ?_, ?_, ?_⟩
  · intro a b h
    have h0 : dotQ a a = 0 := (dotQ_self_eq_zero a).mpr h
    simp [_cosine_similarity, h0]
  · intro a b h
    have h0 : dotQ b b = 0 := (dotQ_self_eq_zero b).mpr h
    simp [_cosine_similarity, h0]
  · intro a h
    rcases h with ⟨x, hx, hx0⟩
    have hne : dotQ a a ≠ 0 := by
      intro h0
      exact hx0 ((dotQ_self_eq_zero a).mp h0 x hx)
    have hpos : (0 : ℝ) < ((dotQ a a : ℚ) : ℝ) := by
      have := lt_of_le_of_ne (dotQ_self_nonneg a) (Ne.symm hne)
      exact_mod_cast this
    have hsq : Real.sqrt ((dotQ a a : ℚ) : ℝ) * Real.sqrt ((dotQ a a : ℚ) : ℝ)
        = ((dotQ a a : ℚ) : ℝ) := Real.mul_self_sqrt (le_of_lt hpos)
    simp only [_cosine_similarity, hsq]
    rw [if_neg (ne_of_gt hpos)]
    exact div_self (ne_of_gt hpos)

theorem C8_witness :
    (∃ x ∈ ([1] : Vec), x ≠ 0)
      ∧ _cosine_similarity (some ([1] : Vec)) (some ([1] : Vec)) = 1 :=
  ⟨⟨1, by decide, by decide⟩,
    C8_cosine.2.2.2.2 [1] ⟨1, by decide, by decide⟩⟩

/-- C9: `_calculate_experience_boost` equals
`min(count(experience) * 0.05, 0.2)`, is monotone non-decreasing in the
number of experience entries, is bounded by `0.2`, and takes the values
`0.0`, `0.2`, `0.2` at `0`, `4`, `10` entries. -/
theorem C9_experience_boost :
    (∀ c : Candidate, _calculate_experience_boost c
        = min ((c.experience.length : ℚ) * (5 / 100)) (2 / 10))
    ∧ (∀ c₁ c₂ : Candidate, c₁.experience.length ≤ c₂.experience.length →
        _calculate_experience_boost c₁ ≤ _calculate_experience_boost c₂)
    ∧ (∀ c : Candidate, _calculate_experience_boost c ≤ 2 / 10)
    ∧ (∀ c : Candidate, c.experience.length = 0 →
        _calculate_experience_boost c = 0)
    ∧ (∀ c : Candidate, c.experience.length = 4 →
        _calculate_experience_boost c = 2 / 10)
    ∧ (∀ c : Candidate, c.experience.length = 10 →
        _calculate_experience_boost c = 2 / 10) := by
  have hform : ∀ c : Candidate, _calculate_experience_boost c
      = min ((c.experience.length : ℚ) * (5 / 100)) (2 / 10) := by
    intro c
    unfold _calculate_experience_boost
    by_cases h : c.experience = []
    · rw [if_pos h, h]
      norm_num
    · rw [if_neg h]
  refine ⟨hform, ?_, ?_, ?_, ?_, ?_⟩
  · intro c₁ c₂ h
    rw [hform, hform]
    have : ((c₁.experience.length : ℚ)) * (5 / 100)
        ≤ ((c₂.experience.length : ℚ)) * (5 / 100) := by
      have : ((c₁.experience.length : ℚ)) ≤ (c₂.experience.length : ℚ) := by
        exact_mod_cast h
      nlinarith
    exact min_le_min this le_rfl
  · intro c
    rw [hform]
    exact min_le_right _ _
  · intro c h
    rw [hform, h]
    norm_num
  · intro c h
    rw [hform, h]
    norm_num
  · intro c h
    rw [hform, h]
    norm_num

theorem C9_witness :
    _calculate_experience_boost
        { baseCand with experience := List.replicate 4 ⟨"r", ""⟩ } = 2 / 10
      ∧ _calculate_experience_boost
        { baseCand with experience := List.replicate 10 ⟨"r", ""⟩ } = 2 / 10
      ∧ _calculate_experience_boost baseCand = 0
      ∧ _calculate_experience_boost baseCand
          ≤ _calculate_experience_boost
            { baseCand with experience := List.replicate 4 ⟨"r", ""⟩ } :=
  ⟨C9_experience_boost.2.2.2.2.1 _ (by decide),
   C9_experience_boost.2.2.2.2.2 _ (by decide),
   C9_experience_boost.2.2.2.1 _ (by decide),
   C9_experience_boost.2.1 _ _ (by decide)⟩

theorem toLower_data (s : String) : s.toLower = ⟨s.data.map Char.toLower⟩ := by
  simp [String.toLower, String.map_eq]

theorem toLower_empty_iff (s : String) : s.toLower = "" ↔ s = "" := by
  rw [toLower_data]
  constructor
  · intro h
    have h2 : s.data.map Char.toLower = "".data := congrArg String.data h
    have h3 : s.data = [] := List.map_eq_nil_iff.mp h2
    cases s
    simp_all
  · intro h
    rw [h]
    rfl

theorem skill_fold (c : Candidate) (l : List String) :
    ∀ t m : ℚ, l.foldl (fun tm k =>
      (tm.1 + 1,
       match lookupLevel c.skills k with
       | some l => tm.2 + (l : ℚ) / 100
       | none => tm.2)) (t, m)
    = (t + l.length, m + (l.map (skillContribution c)).sum) := by
  induction l with
  | nil => intro t m; simp
  | cons x xs ih =>
      intro t m
      simp only [List.foldl_cons, List.map_cons, List.sum_cons,
        List.length_cons]
      rw [ih]
      cases h : lookupLevel c.skills x with
      | none =>
          have hc : skillContribution c x = 0 := by
            simp [skillContribution, h]
          simp only [h, hc, Prod.mk.injEq]
          constructor
          · push_cast; ring
          · ring
      | some v =>
          have hc : skillContribution c x = (v : ℚ) / 100 := by
            simp [skillContribution, h]
          simp only [h, hc, Prod.mk.injEq]
          constructor
          · push_cast; ring
          · ring

theorem skill_match_char (c : Candidate) (j : Job)
    (hr : j.required_skills ≠ []) (hs : c.skills ≠ []) :
    _calculate_skill_match c j
      = ((j.required_skills.map String.toLower).map
          (skillContribution c)).sum / (j.required_skills.length : ℚ) := by
  simp only [_calculate_skill_match]
  rw [if_neg hr, if_neg hs, skill_fold]
  have hlen : ((j.required_skills.map String.toLower).length : ℚ)
      = (j.required_skills.length : ℚ) := by
    rw [List.length_map]
  have hne : ((0 : ℚ) + (j.required_skills.map String.toLower).length) ≠ 0 := by
    rw [zero_add, hlen]
    have : j.required_skills.length ≠ 0 := by
      simpa [List.length_eq_zero] using hr
    exact_mod_cast this
  rw [if_neg hne]
  rw [zero_add, zero_add, hlen]

theorem lookupLevel_inv (k : String) :
    ∀ l₁ l₂ : List Skill,
      l₁.map (fun s => (s.name.toLower, s.level))
        = l₂.map (fun s => (s.name.toLower, s.level)) →
      (l₁.find? (fun s => s.name ≠ "" ∧ s.name.toLower = k)).map
          (fun s => s.level)
        = (l₂.find? (fun s => s.name ≠ "" ∧ s.name.toLower = k)).map
          (fun s => s.level) := by
  intro l₁
  induction l₁ with
  | nil =>
      intro l₂ h
      have : l₂.map (fun s => (s.name.toLower, s.level)) = [] := h.symm
      rw [List.map_eq_nil_iff.mp this]
  | cons a l₁ ih =>
      intro l₂ h
      cases l₂ with
      | nil => simp at h
      | cons b l₂ =>
          simp only [List.map_cons, List.cons.injEq] at h
          obtain ⟨hab, htail⟩ := h
          have hname : a.name.toLower = b.name.toLower :=
            congrArg Prod.fst hab
          have hlevel : a.level = b.level := congrArg Prod.snd hab
          have hempty : (a.name ≠ "") ↔ (b.name ≠ "") := by
            have h1 : (a.name = "") ↔ (b.name = "") := by
              rw [← toLower_empty_iff a.name, ← toLower_empty_iff b.name,
                hname]
            exact not_congr h1
          by_cases hpa : (a.name ≠ "" ∧ a.name.toLower = k)
          · have hpb : (b.name ≠ "" ∧ b.name.toLower = k) := by
              rw [← hname, ← hempty]
              exact hpa
            rw [List.find?_cons_of_pos _ (by simpa using hpa),
              List.find?_cons_of_pos _ (by simpa using hpb)]
            simpa using hlevel
          · have hpb : ¬ (b.name ≠ "" ∧ b.name.toLower = k) := by
              rw [← hname, ← hempty]
              exact hpa
            rw [List.find?_cons_of_neg _ (by simpa using hpa),
              List.find?_cons_of_neg _ (by simpa using hpb)]
            exact ih l₂ htail

/-- C4: `_calculate_skill_match` returns `0.0` when the job has no required
skills or the candidate has no skills; otherwise it is the mean over the
(lowercased) required skills of the per-skill contribution from a
case-insensitive last-wins name→level dictionary, each present skill adding
`level/100`; a matching skill at level `0` contributes exactly `0`; the
result is invariant under skill-name casing (on either side) and under
reordering of `required_skills`; and one required skill present at level
`80` yields exactly `0.8`. -/
theorem C4_skill_match :
    (∀ c j, j.required_skills = [] → _calculate_skill_match c j = 0)
    ∧ (∀ c j, c.skills = [] → _calculate_skill_match c j = 0)
    ∧ (∀ c j, j.required_skills ≠ [] → c.skills ≠ [] →
        _calculate_skill_match c j
          = ((j.required_skills.map String.toLower).map
              (skillContribution c)).sum / (j.required_skills.length : ℚ))
    ∧ (∀ (sk : List Skill) (s : Skill) (k : String), s.name ≠ "" →
        s.name.toLower = k → lookupLevel (sk ++ [s]) k = some s.level)
    ∧ (∀ c k, lookupLevel c.skills k = some 0 → skillContribution c k = 0)
    ∧ (∀ c j₁ j₂, j₁.required_skills.map String.toLower
          = j₂.required_skills.map String.toLower →
        _calculate_skill_match c j₁ = _calculate_skill_match c j₂)
    ∧ (∀ c₁ c₂ j, c₁.skills.map (fun s => (s.name.toLower, s.level))
          = c₂.skills.map (fun s => (s.name.toLower, s.level)) →
        _calculate_skill_match c₁ j = _calculate_skill_match c₂ j)
    ∧ (∀ c j₁ j₂, j₁.required_skills.Perm j₂.required_skills →
        _calculate_skill_match c j₁ = _calculate_skill_match c j₂)
    ∧ (_calculate_skill_match
        { baseCand with skills := [⟨"python", 80⟩] }
        { baseJob with required_skills := ["python"] } = 8 / 10) := by
  have hlow : "python".toLower = "python" := by rw [toLower_data]; rfl
  have hex : _calculate_skill_match
      { baseCand with skills := [⟨"python", 80⟩] }
      { baseJob with required_skills := ["python"] } = 8 / 10 := by
    rw [skill_match_char _ _ (by decide) (by decide)]
    have hcon : skillContribution
        { baseCand with skills := [⟨"python", 80⟩] } "python" = 8 / 10 := by
      have hl : lookupLevel [⟨"python", 80⟩] "python" = some 80 := by
        unfold lookupLevel
        rw [show ([⟨"python", 80⟩] : List Skill).reverse
            = [⟨"python", 80⟩] from rfl]
        rw [List.find?_cons_of_pos _ (by simp [hlow])]
        rfl
      simp only [skillContribution]
      rw [hl]
      norm_num
    rw [show ({ baseJob with required_skills := ["python"] }
        : Job).required_skills = ["python"] from rfl]
    simp only [List.map_cons, List.map_nil, hlow, List.sum_cons,
      List.sum_nil, List.length_cons, List.length_nil, hcon]
    norm_num
  refine ⟨?_, ?_, skill_match_char, ?_, ?_, ?_, ?_, ?_, hex⟩
  · intro c j h
    simp [_calculate_skill_match, h]
  · intro c j h
    simp [_calculate_skill_match, h]
  · intro sk s k h1 h2
    unfold lookupLevel
    rw [List.reverse_append]
    simp only [List.reverse_cons, List.reverse_nil, List.nil_append,
      List.singleton_append]
    rw [List.find?_cons_of_pos _ (by simp [h1, h2])]
    rfl
  · intro c k h
    simp [skillContribution, h]
  · intro c j₁ j₂ h
    by_cases hr : j₁.required_skills = []
    · have hr2 : j₂.required_skills = [] := by
        rw [hr] at h
        exact List.map_eq_nil_iff.mp h.symm
      simp [_calculate_skill_match, hr, hr2]
    · have hr2 : j₂.required_skills ≠ [] := by
        intro h2
        apply hr
        rw [h2] at h
        exact List.map_eq_nil_iff.mp h
      by_cases hs : c.skills = []
      · simp [_calculate_skill_match, hs]
      · rw [skill_match_char c j₁ hr hs, skill_match_char c j₂ hr2 hs, h]
        have hlen : j₁.required_skills.length = j₂.required_skills.length := by
          have h2 := congrArg List.length h
          simpa using h2
        rw [hlen]
  · intro c₁ c₂ j h
    have hlook : ∀ k, lookupLevel c₁.skills k = lookupLevel c₂.skills k := by
      intro k
      unfold lookupLevel
      rw [lookupLevel_inv k c₁.skills.reverse c₂.skills.reverse
        (by rw [List.map_reverse, List.map_reverse, h])]
    have hcontrib : skillContribution c₁ = skillContribution c₂ := by
      funext k
      unfold skillContribution
      rw [hlook]
    have hskills : (c₁.skills = []) ↔ (c₂.skills = []) := by
      constructor <;> intro hh
      · rw [hh] at h
        exact List.map_eq_nil_iff.mp h.symm
      · rw [hh] at h
        exact List.map_eq_nil_iff.mp h
    by_cases hr : j.required_skills = []
    · simp [_calculate_skill_match, hr]
    · by_cases hs : c₁.skills = []
      · have hs2 := hskills.mp hs
        simp [_calculate_skill_match, hs, hs2]
      · have hs2 : c₂.skills ≠ [] := fun hh => hs (hskills.mpr hh)
        rw [skill_match_char c₁ j hr hs, skill_match_char c₂ j hr hs2,
          hcontrib]
  · intro c j₁ j₂ hp
    by_cases hr : j₁.required_skills = []
    · have hr2 : j₂.required_skills = [] := by
        rw [hr] at hp
        exact hp.symm.eq_nil
      simp [_calculate_skill_match, hr, hr2]
    · have hr2 : j₂.required_skills ≠ [] := by
        intro h2
        rw [h2] at hp
        exact hr hp.eq_nil
      by_cases hs : c.skills = []
      · simp [_calculate_skill_match, hs]
      · rw [skill_match_char c j₁ hr hs, skill_match_char c j₂ hr2 hs]
        have hsum := (List.Perm.map (skillContribution c)
          (List.Perm.map String.toLower hp)).sum_eq
        rw [hsum, hp.length_eq]

theorem C4_witness :
    _calculate_skill_match baseCand
        { baseJob with required_skills := ["x"] } = 0
    ∧ lookupLevel ([⟨"Py", 10⟩] ++ [⟨"pY", 30⟩]) "py" = some 30
    ∧ _calculate_skill_match baseCand baseJob = 0 :=
  ⟨C4_skill_match.2.1 baseCand _ rfl,
   C4_skill_match.2.2.2.1 [⟨"Py", 10⟩] ⟨"pY", 30⟩ "py" (by decide)
     (by rw [toLower_data]; rfl),
   C4_skill_match.1 baseCand baseJob rfl⟩

theorem mem_insertStr (y x : String) (l : List String) :
    y ∈ insertStr x l ↔ y = x ∨ y ∈ l := by
  induction l with
  | nil => simp [insertStr]
  | cons a as ih =>
      unfold insertStr
      cases h : strLtB a x <;> simp [ih, List.mem_cons] <;> tauto

theorem mem_sortStr (y : String) (l : List String) :
    y ∈ sortStr l ↔ y ∈ l := by
  induction l with
  | nil => simp [sortStr]
  | cons a as ih => simp [sortStr, mem_insertStr, ih]

/-- C7: for every candidate and job that resolve, `analyze_skill_gaps`
reports the case-insensitive set difference (missing) and intersection
(matching) of required vs. possessed skills, a match percentage of
`|matching|/|required| × 100` rounded to one decimal (`0.0` with no
required skills), and at most five recommendations, one per missing skill
(title-cased) from a fixed template; on the spec's example (required
python/sql, possessed python) it returns matching `["python"]`, missing
`["sql"]`, percentage `50.0`. -/
theorem C7_skill_gaps :
    (∀ (env : Env) (db : DB) (email jid : String) (c : Candidate) (j : Job)
      (i : Nat),
      env.candFindFails = false → env.jobFindFails = false →
      findCandByEmail db email = some c →
      parseObjectId jid = some i →
      findJobById db i = some j →
      ∃ pct matching missing recs,
        analyze_skill_gaps env db email jid
          = .ok (.report j.title pct matching missing
              (gapReqSkills j).dedup.length recs)
        ∧ (∀ s, s ∈ missing ↔ (s ∈ gapReqSkills j ∧ s ∉ gapCandSkills c))
        ∧ (∀ s, s ∈ matching ↔ (s ∈ gapReqSkills j ∧ s ∈ gapCandSkills c))
        ∧ pct = (if 0 < (gapReqSkills j).dedup.length then
            pyRound1 (((matching.length : ℚ)
              / ((gapReqSkills j).dedup.length : ℚ)) * 100) else 0)
        ∧ recs = (missing.take 5).map
            (fun s => "Consider learning " ++ pyTitle s
              ++ " through online courses or certifications")
        ∧ recs.length ≤ 5)
    ∧ analyze_skill_gaps envOk
        ⟨[{ baseCand with
            email := "c@x", skills := [⟨"Python", 70⟩] }],
         [{ baseJob with
            id := some 1, title := "T",
            required_skills := ["Python", "SQL"] }]⟩
        "c@x" "000000000000000000000001"
      = .ok (.report "T" 50 ["python"] ["sql"] 2
          ["Consider learning Sql through online courses or certifications"])
    := by
  constructor
  · intro env db email jid c j i hcf hjf hfc hp hfj
    refine ⟨(if 0 < ((gapReqSkills j).dedup).length then
        pyRound1 ((((sortStr (((gapReqSkills j).dedup).filter
          (fun s => s ∈ gapCandSkills c))).length : ℚ)
            / (((gapReqSkills j).dedup).length : ℚ)) * 100) else 0),
      sortStr (((gapReqSkills j).dedup).filter
        (fun s => s ∈ gapCandSkills c)),
      sortStr (((gapReqSkills j).dedup).filter
        (fun s => ¬ s ∈ gapCandSkills c)),
      _generate_recommendations (sortStr (((gapReqSkills j).dedup).filter
        (fun s => ¬ s ∈ gapCandSkills c))),
      ?_, ?_, ?_, rfl, rfl, ?_⟩
    · simp only [analyze_skill_gaps, hcf, hp, hjf, hfc, hfj]
      rfl
    · intro s
      simp [mem_sortStr, List.mem_filter, List.mem_dedup]
    · intro s
      simp [mem_sortStr, List.mem_filter, List.mem_dedup]
    · simp only [_generate_recommendations, List.length_map]
      exact le_trans (List.length_take_le 5 _) le_rfl
  · have hreq : gapReqSkills { baseJob with
        id := some 1, title := "T",
        required_skills := ["Python", "SQL"] } = ["python", "sql"] := by
      simp only [gapReqSkills, List.map_cons, List.map_nil, toLower_data]
      rfl
    have hposs : gapCandSkills { baseCand with
        email := "c@x", skills := [⟨"Python", 70⟩] } = ["python"] := by
      simp only [gapCandSkills, List.map_cons, List.map_nil, toLower_data]
      rfl
    have e1 : parseObjectId "000000000000000000000001" = some 1 := by decide
    have e2 : findCandByEmail
        ⟨[{ baseCand with
            email := "c@x", skills := [⟨"Python", 70⟩] }],
         [{ baseJob with
            id := some 1, title := "T",
            required_skills := ["Python", "SQL"] }]⟩ "c@x"
        = some { baseCand with
            email := "c@x", skills := [⟨"Python", 70⟩] } := rfl
    have e3 : findJobById
        ⟨[{ baseCand with
            email := "c@x", skills := [⟨"Python", 70⟩] }],
         [{ baseJob with
            id := some 1, title := "T",
            required_skills := ["Python", "SQL"] }]⟩ 1
        = some { baseJob with
            id := some 1, title := "T",
            required_skills := ["Python", "SQL"] } := rfl
    simp only [analyze_skill_gaps, envOk, e1, e2, e3, hreq, hposs,
      Bool.false_eq_true, if_false, Except.ok.injEq]
    rw [show sortStr (List.filter (fun s => decide (s ∈ ["python"]))
        (["python", "sql"] : List String).dedup) = ["python"] from by decide]
    rw [show sortStr (List.filter (fun s => decide (s ∉ ["python"]))
        (["python", "sql"] : List String).dedup) = ["sql"] from by decide]
    rw [show ((["python", "sql"] : List String).dedup.length) = 2 from
      by decide]
    rw [show _generate_recommendations ["sql"]
        = ["Consider learning Sql through online courses or certifications"]
      from by decide]
    norm_num [pyRound1, rheQ]

theorem trim_empty_str : "".trim = "" := by
  unfold String.trim Substring.trim Substring.takeWhileAux
    Substring.takeRightWhileAux
  decide

theorem trim_x_str : "x".trim = "x" := by
  unfold String.trim Substring.trim Substring.takeWhileAux
    Substring.takeRightWhileAux
  decide

theorem trim_y_str : "y".trim = "y" := by
  unfold String.trim Substring.trim Substring.takeWhileAux
    Substring.takeRightWhileAux
  decide

theorem clamp01_nonneg (x : ℝ) : 0 ≤ clamp01 x := le_max_left 0 _

theorem clamp01_le_one (x : ℝ) : clamp01 x ≤ 1 :=
  max_le (by norm_num) (min_le_left 1 x)

theorem rheR_nonneg (y : ℝ) (h : 0 ≤ y) : 0 ≤ rheR y := by
  unfold rheR
  have hf : (0 : ℤ) ≤ ⌊y⌋ := Int.floor_nonneg.mpr h
  split_ifs <;> omega

theorem rheR_le (y : ℝ) (B : ℤ) (h : y ≤ (B : ℝ)) : rheR y ≤ B := by
  have hfle : ⌊y⌋ ≤ B := by
    calc ⌊y⌋ ≤ ⌊(B : ℝ)⌋ := Int.floor_le_floor h
    _ = B := Int.floor_intCast B
  have hfr : (⌊y⌋ : ℝ) ≤ y := Int.floor_le y
  unfold rheR
  split_ifs with h1 h2 h3
  · exact hfle
  · have hlt : ((⌊y⌋ : ℤ) : ℝ) < (B : ℝ) := by linarith
    have : ⌊y⌋ < B := by exact_mod_cast hlt
    omega
  · exact hfle
  · have hge : (1 : ℝ) / 2 ≤ y - ⌊y⌋ := le_of_not_lt h1
    have hlt : ((⌊y⌋ : ℤ) : ℝ) < (B : ℝ) := by linarith
    have : ⌊y⌋ < B := by exact_mod_cast hlt
    omega

theorem pyRound3_clamp01_nonneg (x : ℝ) : 0 ≤ pyRound3 (clamp01 x) := by
  unfold pyRound3
  apply div_nonneg _ (by norm_num)
  have h := rheR_nonneg (clamp01 x * 1000)
    (mul_nonneg (clamp01_nonneg x) (by norm_num))
  exact_mod_cast h

theorem pyRound3_clamp01_le_one (x : ℝ) : pyRound3 (clamp01 x) ≤ 1 := by
  unfold pyRound3
  rw [div_le_one (by norm_num)]
  have h := rheR_le (clamp01 x * 1000) 1000
    (by push_cast; linarith [clamp01_le_one x])
  calc ((rheR (clamp01 x * 1000) : ℤ) : ℝ) ≤ ((1000 : ℤ) : ℝ) := by
        exact_mod_cast h
  _ = 1000 := by norm_num

theorem cms_empty (env : Env) (db : DB) (c : Candidate) (j : Job)
    (h : _extract_candidate_text c = "" ∨ _extract_job_text j = "") :
    calculate_match_score env db c j = (db, 0, .ok 0) := by
  simp only [calculate_match_score]
  rw [if_pos h]

theorem cms_of_resolves (env : Env) (db : DB) (c : Candidate) (j : Job)
    (db1 : DB) (n1 : Nat) (ce : Option Vec) (db2 : DB) (n2 : Nat)
    (je : Option Vec)
    (hne : ¬(_extract_candidate_text c = "" ∨ _extract_job_text j = ""))
    (h1 : resolveCandEmb env db c = (db1, n1, Except.ok ce))
    (h2 : resolveJobEmb env db1 j = (db2, n2, Except.ok je)) :
    calculate_match_score env db c j
      = (db2, n1 + n2, Except.ok (pyRound3 (clamp01
          ((6 / 10) * _cosine_similarity ce je
            + (3 / 10) * ((_calculate_skill_match c j : ℚ) : ℝ)
            + (1 / 10) * ((_calculate_experience_boost c : ℚ) : ℝ))))) := by
  simp only [calculate_match_score]
  rw [if_neg hne]
  simp only [h1, h2]

theorem cms_cand_error (env : Env) (db : DB) (c : Candidate) (j : Job)
    (db1 : DB) (n1 : Nat) (u : Unit)
    (hne : ¬(_extract_candidate_text c = "" ∨ _extract_job_text j = ""))
    (h1 : resolveCandEmb env db c = (db1, n1, Except.error u)) :
    calculate_match_score env db c j = (db1, n1, .error ()) := by
  simp only [calculate_match_score]
  rw [if_neg hne]
  simp only [h1]

theorem cms_job_error (env : Env) (db : DB) (c : Candidate) (j : Job)
    (db1 : DB) (n1 : Nat) (ce : Option Vec) (db2 : DB) (n2 : Nat) (u : Unit)
    (hne : ¬(_extract_candidate_text c = "" ∨ _extract_job_text j = ""))
    (h1 : resolveCandEmb env db c = (db1, n1, Except.ok ce))
    (h2 : resolveJobEmb env db1 j = (db2, n2, Except.error u)) :
    calculate_match_score env db c j = (db2, n1 + n2, .error ()) := by
  simp only [calculate_match_score]
  rw [if_neg hne]
  simp only [h1, h2]

/-- C3: whenever `calculate_match_score` returns a number, that number is
`clamp(0.6·semantic + 0.3·skill + 0.1·experience, 0, 1)` rounded to three
decimals — hence an integer multiple of `1/1000` lying in `[0,1]` — and an
empty extracted text on either side yields exactly `0.0` (with no provider
call and no store change). -/
theorem C3_score_bounds :
    ∀ (env : Env) (db : DB) (c : Candidate) (j : Job),
    ((_extract_candidate_text c = "" ∨ _extract_job_text j = "") →
      calculate_match_score env db c j = (db, 0, .ok 0))
    ∧ (∀ db' k s, calculate_match_score env db c j = (db', k, .ok s) →
        0 ≤ s ∧ s ≤ 1 ∧ ∃ z : ℤ, s = (z : ℝ) / 1000)
    ∧ (∀ db' k s,
        ¬(_extract_candidate_text c = "" ∨ _extract_job_text j = "") →
        calculate_match_score env db c j = (db', k, .ok s) →
        ∃ ce je, s = pyRound3 (clamp01 ((6 / 10) * _cosine_similarity ce je
          + (3 / 10) * ((_calculate_skill_match c j : ℚ) : ℝ)
          + (1 / 10) * ((_calculate_experience_boost c : ℚ) : ℝ)))) := by
  intro env db c j
  have hshape : ∀ db' k s,
      ¬(_extract_candidate_text c = "" ∨ _extract_job_text j = "") →
      calculate_match_score env db c j = (db', k, .ok s) →
      ∃ ce je, s = pyRound3 (clamp01 ((6 / 10) * _cosine_similarity ce je
        + (3 / 10) * ((_calculate_skill_match c j : ℚ) : ℝ)
        + (1 / 10) * ((_calculate_experience_boost c : ℚ) : ℝ))) := by
    intro db' k s hne h
    rcases hr1 : resolveCandEmb env db c with ⟨db1, n1, u | ce⟩
    · rw [cms_cand_error env db c j db1 n1 u hne hr1] at h
      simp at h
    · rcases hr2 : resolveJobEmb env db1 j with ⟨db2, n2, u | je⟩
      · rw [cms_job_error env db c j db1 n1 ce db2 n2 u hne hr1 hr2] at h
        simp at h
      · rw [cms_of_resolves env db c j db1 n1 ce db2 n2 je hne hr1 hr2] at h
        simp only [Prod.mk.injEq, Except.ok.injEq] at h
        exact ⟨ce, je, h.2.2.symm⟩
  refine ⟨cms_empty env db c j, ?_, hshape⟩
  intro db' k s h
  by_cases hemp : _extract_candidate_text c = "" ∨ _extract_job_text j = ""
  · rw [cms_empty env db c j hemp] at h
    simp only [Prod.mk.injEq, Except.ok.injEq] at h
    refine ⟨by rw [← h.2.2], by rw [← h.2.2]; norm_num, 0, by rw [← h.2.2]; norm_num⟩
  · obtain ⟨ce, je, hs⟩ := hshape db' k s hemp h
    subst hs
    exact ⟨pyRound3_clamp01_nonneg _, pyRound3_clamp01_le_one _,
      rheR (clamp01 ((6 / 10) * _cosine_similarity ce je
        + (3 / 10) * ((_calculate_skill_match c j : ℚ) : ℝ)
        + (1 / 10) * ((_calculate_experience_boost c : ℚ) : ℝ)) * 1000), rfl⟩

theorem C3_witness :
    calculate_match_score envOk ⟨[], []⟩ baseCand baseJob
      = (⟨[], []⟩, 0, .ok 0) :=
  (C3_score_bounds envOk ⟨[], []⟩ baseCand baseJob).1
    (Or.inl ((rfl : _extract_candidate_text baseCand = "".trim).trans
      trim_empty_str))

theorem embTruthy_some_ne (v : Vec) (h : v ≠ []) : embTruthy (some v) = true := by
  cases v with
  | nil => exact absurd rfl h
  | cons a l => rfl

theorem resolveCand_cached (env : Env) (db : DB) (c : Candidate) (i : Nat)
    (rc : Candidate) (hid : c.id = some i)
    (hff : env.candFindFails = false)
    (hfind : findCandById db i = some rc)
    (ht : embTruthy rc.embedding = true) :
    resolveCandEmb env db c = (db, 0, .ok rc.embedding) := by
  simp only [resolveCandEmb, tryResolveCand, hid, hff, hfind, ht,
    Bool.false_eq_true, if_false, if_true]

theorem resolveJob_cached (env : Env) (db : DB) (j : Job) (i : Nat)
    (rj : Job) (hid : j.id = some i)
    (hff : env.jobFindFails = false)
    (hfind : findJobById db i = some rj)
    (ht : embTruthy rj.embedding = true) :
    resolveJobEmb env db j = (db, 0, .ok rj.embedding) := by
  simp only [resolveJobEmb, tryResolveJob, hid, hff, hfind, ht,
    Bool.false_eq_true, if_false, if_true]

theorem embed_store_cand_eq (env : Env) (db : DB) (c : Candidate) (i : Nat)
    (vc : Vec) (hid : c.id = some i)
    (htext : _extract_candidate_text c ≠ "")
    (henc : env.encodeRes (_extract_candidate_text c) = some vc)
    (hupd : env.candUpdateFails = false) :
    embed_and_store_candidate env db c
      = (updateCandEmb db (some i) vc, 1, .ok (some vc)) := by
  simp only [embed_and_store_candidate, henc, hid, hupd,
    Bool.false_eq_true, if_false]
  rw [if_neg htext]

theorem embed_store_job_eq (env : Env) (db : DB) (j : Job) (i : Nat)
    (vj : Vec) (hid : j.id = some i)
    (htext : _extract_job_text j ≠ "")
    (henc : env.encodeRes (_extract_job_text j) = some vj)
    (hupd : env.jobUpdateFails = false) :
    embed_and_store_job env db j
      = (updateJobEmb db (some i) vj, 1, .ok (some vj)) := by
  simp only [embed_and_store_job, henc, hid, hupd,
    Bool.false_eq_true, if_false]
  rw [if_neg htext]

theorem resolveCand_store (env : Env) (db : DB) (c : Candidate) (i : Nat)
    (rc : Candidate) (vc : Vec) (hid : c.id = some i)
    (hff : env.candFindFails = false)
    (hfind : findCandById db i = some rc)
    (ht : embTruthy rc.embedding = false)
    (htext : _extract_candidate_text c ≠ "")
    (henc : env.encodeRes (_extract_candidate_text c) = some vc)
    (hupd : env.candUpdateFails = false) :
    resolveCandEmb env db c
      = (updateCandEmb db (some i) vc, 1, .ok (some vc)) := by
  simp only [resolveCandEmb, tryResolveCand, hid, hff, hfind, ht,
    Bool.false_eq_true, if_false,
    embed_store_cand_eq env db c i vc hid htext henc hupd]

theorem resolveJob_store (env : Env) (db : DB) (j : Job) (i : Nat)
    (rj : Job) (vj : Vec) (hid : j.id = some i)
    (hff : env.jobFindFails = false)
    (hfind : findJobById db i = some rj)
    (ht : embTruthy rj.embedding = false)
    (htext : _extract_job_text j ≠ "")
    (henc : env.encodeRes (_extract_job_text j) = some vj)
    (hupd : env.jobUpdateFails = false) :
    resolveJobEmb env db j
      = (updateJobEmb db (some i) vj, 1, .ok (some vj)) := by
  simp only [resolveJobEmb, tryResolveJob, hid, hff, hfind, ht,
    Bool.false_eq_true, if_false,
    embed_store_job_eq env db j i vj hid htext henc hupd]

theorem resolveCand_direct (env : Env) (db : DB) (c : Candidate) (vc : Vec)
    (hid : c.id = none) (htext : _extract_candidate_text c ≠ "")
    (henc : env.encodeRes (_extract_candidate_text c) = some vc) :
    resolveCandEmb env db c = (db, 1, .ok (some vc)) := by
  have he : encode_text env (_extract_candidate_text c)
      = (1, .ok (some vc)) := by
    simp only [encode_text, henc]
    rw [if_neg htext]
  simp only [resolveCandEmb, tryResolveCand, hid, he]

theorem resolveJob_direct (env : Env) (db : DB) (j : Job) (vj : Vec)
    (hid : j.id = none) (htext : _extract_job_text j ≠ "")
    (henc : env.encodeRes (_extract_job_text j) = some vj) :
    resolveJobEmb env db j = (db, 1, .ok (some vj)) := by
  have he : encode_text env (_extract_job_text j)
      = (1, .ok (some vj)) := by
    simp only [encode_text, henc]
    rw [if_neg htext]
  simp only [resolveJobEmb, tryResolveJob, hid, he]

theorem findJobById_updateCand (db : DB) (o : Option Nat) (v : Vec)
    (i : Nat) : findJobById (updateCandEmb db o v) i = findJobById db i := by
  cases o <;> rfl

theorem findCandById_updateJob (db : DB) (o : Option Nat) (v : Vec)
    (i : Nat) : findCandById (updateJobEmb db o v) i = findCandById db i := by
  cases o <;> rfl

theorem jobs_updateCand (db : DB) (o : Option Nat) (v : Vec) :
    (updateCandEmb db o v).jobs = db.jobs := by
  cases o <;> rfl

theorem candidates_updateJob (db : DB) (o : Option Nat) (v : Vec) :
    (updateJobEmb db o v).candidates = db.candidates := by
  cases o <;> rfl

theorem updateFirst_find_cand (i : Nat) (v : Vec) :
    ∀ (l : List Candidate) (rc : Candidate),
      l.find? (fun c => c.id = some i) = some rc →
      (updateCandEmb.updateFirst l i v).find? (fun c => c.id = some i)
        = some { rc with embedding := some v } := by
  intro l
  induction l with
  | nil => intro rc h; simp at h
  | cons a l ih =>
      intro rc h
      by_cases ha : a.id = some i
      · rw [List.find?_cons_of_pos _ (by simpa using ha)] at h
        injection h with h
        subst h
        unfold updateCandEmb.updateFirst
        rw [if_pos ha]
        rw [List.find?_cons_of_pos _ (by simpa using ha)]
      · rw [List.find?_cons_of_neg _ (by simpa using ha)] at h
        unfold updateCandEmb.updateFirst
        rw [if_neg ha]
        rw [List.find?_cons_of_neg _ (by simpa using ha)]
        exact ih rc h

theorem updateFirst_find_job (i : Nat) (v : Vec) :
    ∀ (l : List Job) (rj : Job),
      l.find? (fun j => j.id = some i) = some rj →
      (updateJobEmb.updateFirst l i v).find? (fun j => j.id = some i)
        = some { rj with embedding := some v } := by
  intro l
  induction l with
  | nil => intro rj h; simp at h
  | cons a l ih =>
      intro rj h
      by_cases ha : a.id = some i
      · rw [List.find?_cons_of_pos _ (by simpa using ha)] at h
        injection h with h
        subst h
        unfold updateJobEmb.updateFirst
        rw [if_pos ha]
        rw [List.find?_cons_of_pos _ (by simpa using ha)]
      · rw [List.find?_cons_of_neg _ (by simpa using ha)] at h
        unfold updateJobEmb.updateFirst
        rw [if_neg ha]
        rw [List.find?_cons_of_neg _ (by simpa using ha)]
        exact ih rj h

theorem findCandById_updateCand_self (db : DB) (i : Nat) (v : Vec)
    (rc : Candidate) (h : findCandById db i = some rc) :
    findCandById (updateCandEmb db (some i) v) i
      = some { rc with embedding := some v } := by
  unfold findCandById updateCandEmb at *
  exact updateFirst_find_cand i v db.candidates rc h

theorem findJobById_updateJob_self (db : DB) (i : Nat) (v : Vec)
    (rj : Job) (h : findJobById db i = some rj) :
    findJobById (updateJobEmb db (some i) v) i
      = some { rj with embedding := some v } := by
  unfold findJobById updateJobEmb at *
  exact updateFirst_find_job i v db.jobs rj h

theorem resolveCand_total (env : Env) (db : DB) (c : Candidate)
    (hc : _extract_candidate_text c ≠ "")
    (hprov : env.encodeRes (_extract_candidate_text c) ≠ none) :
    ∃ db1 n1 ce, resolveCandEmb env db c = (db1, n1, Except.ok ce) := by
  obtain ⟨vc, hvc⟩ : ∃ v, env.encodeRes (_extract_candidate_text c)
      = some v := by
    cases hh : env.encodeRes (_extract_candidate_text c)
    · exact absurd hh hprov
    · exact ⟨_, rfl⟩
  have henc : encode_text env (_extract_candidate_text c)
      = (1, .ok (some vc)) := by
    simp only [encode_text, hvc]
    rw [if_neg hc]
  rcases htr : tryResolveCand env db c with ⟨db1, n1, u | ce⟩
  · exact ⟨db1, n1 + 1, some vc, by simp only [resolveCandEmb, htr, henc]⟩
  · exact ⟨db1, n1, ce, by simp only [resolveCandEmb, htr]⟩

theorem resolveJob_total (env : Env) (db : DB) (j : Job)
    (hj : _extract_job_text j ≠ "")
    (hprov : env.encodeRes (_extract_job_text j) ≠ none) :
    ∃ db1 n1 je, resolveJobEmb env db j = (db1, n1, Except.ok je) := by
  obtain ⟨vj, hvj⟩ : ∃ v, env.encodeRes (_extract_job_text j) = some v := by
    cases hh : env.encodeRes (_extract_job_text j)
    · exact absurd hh hprov
    · exact ⟨_, rfl⟩
  have henc : encode_text env (_extract_job_text j)
      = (1, .ok (some vj)) := by
    simp only [encode_text, hvj]
    rw [if_neg hj]
  rcases htr : tryResolveJob env db j with ⟨db1, n1, u | je⟩
  · exact ⟨db1, n1 + 1, some vj, by simp only [resolveJobEmb, htr, henc]⟩
  · exact ⟨db1, n1, je, by simp only [resolveJobEmb, htr]⟩

/-- C2 counterexample: with non-empty extracted texts on both sides and an
embedding provider that raises on every call, `calculate_match_score` makes
two provider attempts (the resolution and its fallback) and the exception
escapes its boundary — it does not return a number. -/
theorem C2_counterexample :
    calculate_match_score envFail ⟨[], []⟩ { baseCand with bio := "x" }
      { baseJob with title := "y" } = (⟨[], []⟩, 2, .error ()) := by
  have hcx : _extract_candidate_text { baseCand with bio := "x" } = "x" :=
    (rfl : _extract_candidate_text { baseCand with bio := "x" }
      = "x".trim).trans trim_x_str
  have hjx : _extract_job_text { baseJob with title := "y" } = "y" :=
    (rfl : _extract_job_text { baseJob with title := "y" }
      = "y".trim).trans trim_y_str
  have h1 : resolveCandEmb envFail ⟨[], []⟩ { baseCand with bio := "x" }
      = (⟨[], []⟩, 2, .error ()) := by
    have hcx2 := hcx
    simp only [baseCand] at hcx2
    simp [resolveCandEmb, tryResolveCand, encode_text, envFail, baseCand,
      hcx2]
  simp only [calculate_match_score, hcx, hjx]
  rw [if_neg (by decide : ¬(("x" : String) = "" ∨ ("y" : String) = ""))]
  simp only [h1]

/-- C2 (amended): provided the embedding provider succeeds on the extracted
texts, `calculate_match_score` always returns a number, whatever store
operations fail — a store failure is recovered by the transient fallback
encoding; only a provider failure that persists into the fallback escapes
(see the counterexample). -/
theorem C2_store_failure_recovery :
    ∀ (env : Env) (db : DB) (c : Candidate) (j : Job),
      _extract_candidate_text c ≠ "" → _extract_job_text j ≠ "" →
      (∀ t, t ≠ "" → env.encodeRes t ≠ none) →
      ∃ db' k s, calculate_match_score env db c j
        = (db', k, Except.ok s) := by
  intro env db c j hc hj hprov
  have hne : ¬(_extract_candidate_text c = "" ∨ _extract_job_text j = "") :=
    not_or.mpr ⟨hc, hj⟩
  obtain ⟨db1, n1, ce, h1⟩ := resolveCand_total env db c hc (hprov _ hc)
  obtain ⟨db2, n2, je, h2⟩ := resolveJob_total env db1 j hj (hprov _ hj)
  exact ⟨db2, n1 + n2, _,
    cms_of_resolves env db c j db1 n1 ce db2 n2 je hne h1 h2⟩

theorem C2_witness :
    ∃ db' k s, calculate_match_score envOk ⟨[], []⟩
      { baseCand with bio := "x" } { baseJob with title := "y" }
      = (db', k, Except.ok s) :=
  C2_store_failure_recovery envOk ⟨[], []⟩ _ _
    (by rw [show _extract_candidate_text { baseCand with bio := "x" }
        = "x".trim from rfl, trim_x_str]; decide)
    (by rw [show _extract_job_text { baseJob with title := "y" }
        = "y".trim from rfl, trim_y_str]; decide)
    (fun t _ => by simp [envOk])

/-- C6: when both records already carry stored (truthy) embeddings and the
store's lookups work, scoring uses the stored vectors unchanged with zero
provider invocations and no store writes; and a first scoring pass that
computes and persists both embeddings (one provider call per side) is
followed, on the same pair, by a second pass that makes no provider call at
all and leaves the store unchanged. -/
theorem C6_embedding_cache :
    (∀ (env : Env) (db : DB) (c : Candidate) (j : Job) (i ij : Nat)
      (rc : Candidate) (rj : Job),
      env.candFindFails = false → env.jobFindFails = false →
      c.id = some i → j.id = some ij →
      findCandById db i = some rc → embTruthy rc.embedding = true →
      findJobById db ij = some rj → embTruthy rj.embedding = true →
      ¬(_extract_candidate_text c = "" ∨ _extract_job_text j = "") →
      calculate_match_score env db c j
        = (db, 0, Except.ok (pyRound3 (clamp01
            ((6 / 10) * _cosine_similarity rc.embedding rj.embedding
              + (3 / 10) * ((_calculate_skill_match c j : ℚ) : ℝ)
              + (1 / 10) * ((_calculate_experience_boost c : ℚ) : ℝ))))))
    ∧ (∀ (env : Env) (db : DB) (c : Candidate) (j : Job) (i ij : Nat)
      (rc : Candidate) (rj : Job) (vc vj : Vec),
      env.candFindFails = false → env.jobFindFails = false →
      env.candUpdateFails = false → env.jobUpdateFails = false →
      c.id = some i → j.id = some ij →
      findCandById db i = some rc → embTruthy rc.embedding = false →
      findJobById db ij = some rj → embTruthy rj.embedding = false →
      env.encodeRes (_extract_candidate_text c) = some vc → vc ≠ [] →
      env.encodeRes (_extract_job_text j) = some vj → vj ≠ [] →
      ¬(_extract_candidate_text c = "" ∨ _extract_job_text j = "") →
      ∃ s s',
        calculate_match_score env db c j
          = (updateJobEmb (updateCandEmb db (some i) vc) (some ij) vj, 2,
              Except.ok s)
        ∧ calculate_match_score env
            (updateJobEmb (updateCandEmb db (some i) vc) (some ij) vj) c j
          = (updateJobEmb (updateCandEmb db (some i) vc) (some ij) vj, 0,
              Except.ok s')) := by
  constructor
  · intro env db c j i ij rc rj hcf hjf hci hji hfc ht hfj ht2 hne
    have h1 := resolveCand_cached env db c i rc hci hcf hfc ht
    have h2 := resolveJob_cached env db j ij rj hji hjf hfj ht2
    have := cms_of_resolves env db c j db 0 rc.embedding db 0 rj.embedding
      hne h1 h2
    simpa using this
  · intro env db c j i ij rc rj vc vj hcf hjf hcu hju hci hji hfc ht hfj
      ht2 hevc hvc hevj hvj hne
    have hc := not_or.mp hne
    have h1 := resolveCand_store env db c i rc vc hci hcf hfc ht hc.1
      hevc hcu
    have hfj1 : findJobById (updateCandEmb db (some i) vc) ij = some rj := by
      rw [findJobById_updateCand]
      exact hfj
    have h2 := resolveJob_store env (updateCandEmb db (some i) vc) j ij rj
      vj hji hjf hfj1 ht2 hc.2 hevj hju
    have hfirst := cms_of_resolves env db c j _ 1 (some vc) _ 1 (some vj)
      hne h1 h2
    set db2 := updateJobEmb (updateCandEmb db (some i) vc) (some ij) vj
      with hdb2
    have hfc2 : findCandById db2 i
        = some { rc with embedding := some vc } := by
      rw [hdb2, findCandById_updateJob]
      exact findCandById_updateCand_self db i vc rc hfc
    have hfj2 : findJobById db2 ij
        = some { rj with embedding := some vj } := by
      rw [hdb2]
      exact findJobById_updateJob_self (updateCandEmb db (some i) vc) ij vj
        rj hfj1
    have h1b := resolveCand_cached env db2 c i _ hci hcf hfc2
      (embTruthy_some_ne vc hvc)
    have h2b := resolveJob_cached env db2 j ij _ hji hjf hfj2
      (embTruthy_some_ne vj hvj)
    have hsecond := cms_of_resolves env db2 c j db2 0 (some vc) db2 0
      (some vj) hne h1b h2b
    refine ⟨_, _, by simpa using hfirst, by simpa using hsecond⟩

theorem C6_witness :
    ∃ s, calculate_match_score envOk
      ⟨[{ baseCand with
          id := some 1, bio := "x", embedding := some [1] }],
       [{ baseJob with
          id := some 2, title := "y", embedding := some [1] }]⟩
      { baseCand with id := some 1, bio := "x", embedding := some [1] }
      { baseJob with id := some 2, title := "y", embedding := some [1] }
      = (⟨[{ baseCand with
            id := some 1, bio := "x", embedding := some [1] }],
         [{ baseJob with
            id := some 2, title := "y", embedding := some [1] }]⟩, 0,
          Except.ok s) :=
  ⟨_, C6_embedding_cache.1 envOk _ _ _ 1 2 _ _ rfl rfl rfl rfl rfl rfl rfl
    rfl
    (by
      rw [show _extract_candidate_text { baseCand with
            id := some 1, bio := "x", embedding := some [1] }
          = "x".trim from rfl, trim_x_str,
        show _extract_job_text { baseJob with
            id := some 2, title := "y", embedding := some [1] }
          = "y".trim from rfl, trim_y_str]
      decide)⟩

theorem embTruthy_empty : embTruthy (some []) = false := rfl

theorem sourceFilter_nil (src : Option String) : sourceFilter src [] = [] := by
  cases src with
  | none => rfl
  | some s => simp [sourceFilter]

/-- C10: a stored embedding field holding the EMPTY vector is treated
exactly like an absent embedding, because the code tests the field by
truthiness: `calculate_match_score` and both search operations recompute
the embedding through the provider and overwrite the stored empty vector,
instead of returning it unchanged. -/
theorem C10_empty_embedding :
    (∀ (env : Env) (db : DB) (c : Candidate) (j : Job) (i : Nat)
      (rc : Candidate) (vc vj : Vec),
      env.candFindFails = false → env.candUpdateFails = false →
      c.id = some i → findCandById db i = some rc →
      rc.embedding = some [] → j.id = none →
      env.encodeRes (_extract_candidate_text c) = some vc →
      env.encodeRes (_extract_job_text j) = some vj →
      ¬(_extract_candidate_text c = "" ∨ _extract_job_text j = "") →
      calculate_match_score env db c j
        = (updateCandEmb db (some i) vc, 2, Except.ok (pyRound3 (clamp01
            ((6 / 10) * _cosine_similarity (some vc) (some vj)
              + (3 / 10) * ((_calculate_skill_match c j : ℚ) : ℝ)
              + (1 / 10) * ((_calculate_experience_boost c : ℚ) : ℝ))))))
    ∧ (∀ (env : Env) (db : DB) (email : String) (c : Candidate) (i : Nat)
      (vc : Vec) (n : Nat) (src : Option String),
      env.candFindFails = false → env.candUpdateFails = false →
      findCandByEmail db email = some c →
      c.embedding = some [] → c.id = some i →
      env.encodeRes (_extract_candidate_text c) = some vc →
      _extract_candidate_text c ≠ "" →
      db.jobs = [] →
      find_matching_jobs_for_candidate env db email n src
        = (updateCandEmb db (some i) vc, 1, Except.ok []))
    ∧ (∀ (env : Env) (db : DB) (jid : String) (ij : Nat) (jb : Job)
      (vj : Vec) (n : Nat),
      env.jobFindFails = false → env.jobUpdateFails = false →
      parseObjectId jid = some ij →
      findJobById db ij = some jb →
      jb.embedding = some [] →
      env.encodeRes (_extract_job_text jb) = some vj →
      _extract_job_text jb ≠ "" →
      db.candidates = [] →
      find_matching_candidates_for_job env db jid n
        = (updateJobEmb db (some ij) vj, 1, Except.ok [])) := by
  refine ⟨?_, ?_, ?_⟩
  · intro env db c j i rc vc vj hcf hcu hid hfind hemb hjid hec hej hne
    have hc := not_or.mp hne
    have ht : embTruthy rc.embedding = false := by
      rw [hemb]
      rfl
    have h1 := resolveCand_store env db c i rc vc hid hcf hfind ht hc.1
      hec hcu
    have h2 := resolveJob_direct env (updateCandEmb db (some i) vc) j vj
      hjid hc.2 hej
    have := cms_of_resolves env db c j _ 1 (some vc) _ 1 (some vj) hne h1 h2
    simpa using this
  · intro env db email c i vc n src hcf hcu hfc hemb hid henc htext hjobs
    have ht : embTruthy c.embedding = false := by
      rw [hemb]
      rfl
    simp only [find_matching_jobs_for_candidate, hcf, hfc, ht,
      Bool.false_eq_true, if_false,
      embed_store_cand_eq env db c i vc hid htext henc hcu, hid,
      jobs_updateCand, hjobs, sourceFilter_nil, scoreJobs,
      sortByScoreDesc, List.take_nil]
  · intro env db jid ij jb vj n hjf hju hp hfj hemb henc htext hcands
    have hfj' : db.jobs.find? (fun x => x.id = some ij) = some jb := hfj
    have hjid : jb.id = some ij := by
      simpa using List.find?_some hfj'
    have ht : embTruthy jb.embedding = false := by
      rw [hemb]
      rfl
    simp only [find_matching_candidates_for_job, hp, hjf, hfj, ht,
      Bool.false_eq_true, if_false,
      embed_store_job_eq env db jb ij vj hjid htext henc hju, hjid,
      candidates_updateJob, hcands, scoreCandidates,
      sortByScoreDesc, List.take_nil]

theorem C10_witness :
    ∃ s, calculate_match_score envOk
      ⟨[{ baseCand with
          id := some 1, bio := "x", embedding := some [] }], []⟩
      { baseCand with id := some 1, bio := "x", embedding := some [] }
      { baseJob with title := "y" }
      = (updateCandEmb
          ⟨[{ baseCand with
              id := some 1, bio := "x", embedding := some [] }], []⟩
          (some 1) [1], 2, Except.ok s) :=
  ⟨_, C10_empty_embedding.1 envOk _ _ _ 1 _ [1] [1] rfl rfl rfl rfl rfl rfl
    rfl rfl
    (by
      rw [show _extract_candidate_text { baseCand with
            id := some 1, bio := "x", embedding := some [] }
          = "x".trim from rfl, trim_x_str,
        show _extract_job_text { baseJob with title := "y" }
          = "y".trim from rfl, trim_y_str]
      decide)⟩

/-- C1 counterexample: `find_matching_candidates_for_job` reports a
malformed job identity exactly the same way as a valid identity that
matches no record — both return the plain empty list (`"zzz..."` is not a
valid 24-hex-digit identity; the second string is valid but the job store
is empty). -/
theorem C1_counterexample :
    find_matching_candidates_for_job envOk ⟨[], []⟩ "not-an-object-id" 20
      = (⟨[], []⟩, 0, Except.ok [])
    ∧ find_matching_candidates_for_job envOk ⟨[], []⟩
        "000000000000000000000001" 20
      = (⟨[], []⟩, 0, Except.ok []) :=
  ⟨rfl, rfl⟩

/-- C1 (amended): `analyze_skill_gaps` does report a malformed job identity
distinctly (an "Invalid job ID" error, never conflated with the
"not found" error); but `find_matching_candidates_for_job` returns the
same empty result for a malformed identity as for a valid identity that
matches no record, so for that operation the two conditions are
indistinguishable to the caller. -/
theorem C1_invalid_id_handling :
    (∀ (env : Env) (db : DB) (email jid : String),
      env.candFindFails = false → parseObjectId jid = none →
      analyze_skill_gaps env db email jid = .ok .invalidJobId)
    ∧ (∀ (env : Env) (db : DB) (email jid : String) (i : Nat),
      env.candFindFails = false → env.jobFindFails = false →
      parseObjectId jid = some i → findJobById db i = none →
      analyze_skill_gaps env db email jid = .ok .notFound)
    ∧ (GapResult.invalidJobId ≠ GapResult.notFound)
    ∧ (∀ (env : Env) (db : DB) (jid : String) (n : Nat),
      parseObjectId jid = none →
      find_matching_candidates_for_job env db jid n = (db, 0, .ok []))
    ∧ (∀ (env : Env) (db : DB) (jid : String) (n i : Nat),
      parseObjectId jid = some i → env.jobFindFails = false →
      findJobById db i = none →
      find_matching_candidates_for_job env db jid n
        = (db, 0, .ok [])) := by
  refine ⟨?_, ?_, by decide, ?_, ?_⟩
  · intro env db email jid hcf hp
    simp only [analyze_skill_gaps, hcf, hp, Bool.false_eq_true, if_false]
  · intro env db email jid i hcf hjf hp hfj
    cases hc : findCandByEmail db email <;>
      simp only [analyze_skill_gaps, hcf, hjf, hp, hfj, hc,
        Bool.false_eq_true, if_false]
  · intro env db jid n hp
    simp only [find_matching_candidates_for_job, hp]
  · intro env db jid n i hp hjf hfj
    simp only [find_matching_candidates_for_job, hp, hjf, hfj,
      Bool.false_eq_true, if_false]

theorem C1_witness :
    analyze_skill_gaps envOk ⟨[], []⟩ "e" "zzz" = .ok .invalidJobId
    ∧ analyze_skill_gaps envOk ⟨[], []⟩ "e" "000000000000000000000001"
      = .ok .notFound
    ∧ find_matching_candidates_for_job envOk ⟨[], []⟩ "zzz" 5
      = (⟨[], []⟩, 0, .ok []) :=
  ⟨C1_invalid_id_handling.1 envOk ⟨[], []⟩ "e" "zzz" rfl (by decide),
   C1_invalid_id_handling.2.1 envOk ⟨[], []⟩ "e" _ 1 rfl rfl (by decide)
     rfl,
   C1_invalid_id_handling.2.2.2.1 envOk ⟨[], []⟩ "zzz" 5 (by decide)⟩

theorem mem_insertByScore {α : Type} (key : α → ℝ) (x y : α) (l : List α) :
    y ∈ insertByScore key x l ↔ y = x ∨ y ∈ l := by
  induction l with
  | nil => simp [insertByScore]
  | cons a as ih =>
      unfold insertByScore
      by_cases h : key a ≤ key x
      · rw [if_pos h]
        simp [List.mem_cons]
      · rw [if_neg h]
        simp only [List.mem_cons, ih]
        tauto

theorem mem_sortByScoreDesc {α : Type} (key : α → ℝ) (y : α) (l : List α) :
    y ∈ sortByScoreDesc key l ↔ y ∈ l := by
  induction l with
  | nil => simp [sortByScoreDesc]
  | cons a as ih => simp [sortByScoreDesc, mem_insertByScore, ih]

theorem pairwise_insertByScore {α : Type} (key : α → ℝ) (x : α)
    (l : List α) (h : l.Pairwise (fun a b => key b ≤ key a)) :
    (insertByScore key x l).Pairwise (fun a b => key b ≤ key a) := by
  induction l with
  | nil => simp [insertByScore]
  | cons a as ih =>
      rcases List.pairwise_cons.mp h with ⟨ha, has⟩
      unfold insertByScore
      by_cases hk : key a ≤ key x
      · rw [if_pos hk]
        refine List.Pairwise.cons ?_ h
        intro b hb
        rcases List.mem_cons.mp hb with rfl | hb
        · exact hk
        · exact le_trans (ha b hb) hk
      · rw [if_neg hk]
        refine List.Pairwise.cons ?_ (ih has)
        intro b hb
        rcases (mem_insertByScore key x b as).mp hb with rfl | hb
        · exact le_of_lt (lt_of_not_le hk)
        · exact ha b hb

theorem pairwise_sortByScoreDesc {α : Type} (key : α → ℝ) (l : List α) :
    (sortByScoreDesc key l).Pairwise (fun a b => key b ≤ key a) := by
  induction l with
  | nil => simp [sortByScoreDesc]
  | cons a as ih => exact pairwise_insertByScore key a _ ih

theorem filter_insertByScore {α : Type} (key : α → ℝ) (v : ℝ) (x : α)
    (l : List α) :
    (insertByScore key x l).filter (fun y => decide (key y = v))
      = if key x = v
          then x :: l.filter (fun y => decide (key y = v))
          else l.filter (fun y => decide (key y = v)) := by
  induction l with
  | nil =>
      by_cases h : key x = v
      · simp [insertByScore, List.filter, h]
      · simp [insertByScore, List.filter, h]
  | cons a as ih =>
      unfold insertByScore
      by_cases hk : key a ≤ key x
      · rw [if_pos hk]
        by_cases h : key x = v
        · simp [List.filter_cons, h]
        · simp [List.filter_cons, h]
      · rw [if_neg hk]
        by_cases h : key x = v
        · have ha : ¬ (key a = v) := fun hav =>
            hk (le_of_eq (hav.trans h.symm))
          simp [List.filter_cons, ha, ih, h]
        · by_cases hav : key a = v
          · simp [List.filter_cons, hav, ih, h]
          · simp [List.filter_cons, hav, ih, h]

theorem filter_sortByScoreDesc {α : Type} (key : α → ℝ) (v : ℝ)
    (l : List α) :
    (sortByScoreDesc key l).filter (fun y => decide (key y = v))
      = l.filter (fun y => decide (key y = v)) := by
  induction l with
  | nil => rfl
  | cons a as ih =>
      show (insertByScore key a (sortByScoreDesc key as)).filter _ = _
      rw [filter_insertByScore]
      by_cases h : key a = v
      · rw [if_pos h, ih, List.filter_cons]
        simp [h]
      · rw [if_neg h, ih, List.filter_cons]
        simp [h]

theorem scoreJobs_ok_map_fst (env : Env) :
    ∀ (jobs : List Job) (db : DB) (co : Option Candidate) (db' : DB)
      (n : Nat) (out : List (Job × ℝ)),
      scoreJobs env db co jobs = (db', n, Except.ok out) →
      out.map Prod.fst = jobs := by
  intro jobs
  induction jobs with
  | nil =>
      intro db co db' n out h
      simp only [scoreJobs, Prod.mk.injEq, Except.ok.injEq] at h
      rw [← h.2.2]
      rfl
  | cons j js ih =>
      intro db co db' n out h
      simp only [scoreJobs] at h
      cases co with
      | none => simp at h
      | some c =>
          rcases hcm : calculate_match_score env db c j with ⟨db1, n1, u | s⟩
          · simp only [hcm] at h
            simp at h
          · simp only [hcm] at h
            rcases hsj : scoreJobs env db1 (some c) js
              with ⟨db2, n2, u2 | out2⟩
            · simp only [hsj] at h
              simp at h
            · simp only [hsj] at h
              simp only [Prod.mk.injEq, Except.ok.injEq] at h
              rw [← h.2.2]
              simp only [List.map_cons, List.cons.injEq]
              exact ⟨trivial, ih db1 (some c) db2 n2 out2 hsj⟩

theorem embed_store_cand_jobs (env : Env) (db : DB) (c : Candidate)
    (db' : DB) (n : Nat) (r : Except Unit (Option Vec))
    (h : embed_and_store_candidate env db c = (db', n, r)) :
    db'.jobs = db.jobs := by
  unfold embed_and_store_candidate at h
  by_cases ht : _extract_candidate_text c = ""
  · rw [if_pos ht] at h
    simp only [Prod.mk.injEq] at h
    rw [← h.1]
  · rw [if_neg ht] at h
    cases he : env.encodeRes (_extract_candidate_text c) with
    | none =>
        simp only [he, Prod.mk.injEq] at h
        rw [← h.1]
    | some v =>
        simp only [he] at h
        cases hid : c.id with
        | none =>
            simp only [hid, Prod.mk.injEq] at h
            rw [← h.1]
        | some i =>
            simp only [hid] at h
            by_cases hu : env.candUpdateFails = true
            · simp only [hu, if_true, Prod.mk.injEq] at h
              rw [← h.1]
            · simp only [Bool.not_eq_true] at hu
              simp only [hu, Bool.false_eq_true, if_false,
                Prod.mk.injEq] at h
              rw [← h.1]
              exact jobs_updateCand db (some i) v

theorem sorted_take_props (n : Nat) (S : List (Job × ℝ))
    (src : Option String) (jobs0 : List Job)
    (hmap : S.map Prod.fst = sourceFilter src jobs0) :
    ((sortByScoreDesc (fun x => x.2) S).take n).length ≤ n
    ∧ ((sortByScoreDesc (fun x => x.2) S).take n).Pairwise
        (fun a b => b.2 ≤ a.2)
    ∧ (∀ s, src = some s → s ≠ "" →
        ∀ x ∈ (sortByScoreDesc (fun x => x.2) S).take n,
          x.1.source = some s)
    ∧ ∃ S' : List (Job × ℝ),
        S'.map Prod.fst = sourceFilter src jobs0
        ∧ (sortByScoreDesc (fun x => x.2) S).take n
            = (sortByScoreDesc (fun x => x.2) S').take n
        ∧ ∀ v : ℝ, (sortByScoreDesc (fun x => x.2) S').filter
            (fun x => decide (x.2 = v))
          = S'.filter (fun x => decide (x.2 = v)) := by
  refine ⟨List.length_take_le n _, ?_, ?_, S, hmap, rfl,
    fun v => filter_sortByScoreDesc _ v S⟩
  · exact (pairwise_sortByScoreDesc (fun x => x.2) S).sublist
      (List.take_sublist n _)
  · intro s hsrc hne x hx
    have hx2 : x ∈ sortByScoreDesc (fun x => x.2) S :=
      List.take_subset n _ hx
    have hx3 : x ∈ S := (mem_sortByScoreDesc _ x S).mp hx2
    have hx4 : x.1 ∈ S.map Prod.fst := List.mem_map_of_mem Prod.fst hx3
    rw [hmap, hsrc] at hx4
    simp only [sourceFilter] at hx4
    rw [if_neg hne] at hx4
    have := List.mem_filter.mp hx4
    simpa using this.2

/-- C5: `find_matching_jobs_for_candidate` returns the empty list (not an
error) when no candidate matches the email; and any returned list has at
most `top_n` entries, is sorted by descending composite score, contains
only jobs passing a given (truthy) source filter, and is the `top_n`-prefix
of the stable descending sort of the retrieval-ordered scored list — ties
keep retrieval order, witnessed by the sort preserving the per-score-value
filtrations of that list. -/
theorem C5_find_jobs :
    ∀ (env : Env) (db : DB) (email : String) (n : Nat)
      (src : Option String),
    (env.candFindFails = false → findCandByEmail db email = none →
      find_matching_jobs_for_candidate env db email n src
        = (db, 0, Except.ok []))
    ∧ (∀ (c : Candidate) (db' : DB) (k : Nat) (l : List (Job × ℝ)),
        findCandByEmail db email = some c →
        find_matching_jobs_for_candidate env db email n src
          = (db', k, Except.ok l) →
        l.length ≤ n
        ∧ l.Pairwise (fun a b => b.2 ≤ a.2)
        ∧ (∀ s, src = some s → s ≠ "" → ∀ x ∈ l, x.1.source = some s)
        ∧ ∃ S : List (Job × ℝ),
            S.map Prod.fst = sourceFilter src db.jobs
            ∧ l = (sortByScoreDesc (fun x => x.2) S).take n
            ∧ ∀ v : ℝ, (sortByScoreDesc (fun x => x.2) S).filter
                (fun x => decide (x.2 = v))
              = S.filter (fun x => decide (x.2 = v))) := by
  intro env db email n src
  constructor
  · intro hcf hfc
    simp only [find_matching_jobs_for_candidate, hcf, hfc,
      Bool.false_eq_true, if_false]
  · intro c db' k l hfc h
    cases hcfv : env.candFindFails with
    | true =>
        simp [find_matching_jobs_for_candidate, hcfv] at h
    | false =>
        simp only [find_matching_jobs_for_candidate, hcfv, hfc,
          Bool.false_eq_true, if_false] at h
        cases hembv : embTruthy c.embedding with
        | true =>
            simp only [hembv, if_true] at h
            rcases hsj : scoreJobs env db (some c)
              (sourceFilter src db.jobs) with ⟨db2, n2, u | scored⟩
            · simp only [hsj] at h
              simp at h
            · simp only [hsj] at h
              simp only [Prod.mk.injEq, Except.ok.injEq] at h
              have hmap := scoreJobs_ok_map_fst env _ db (some c) db2 n2
                scored hsj
              obtain ⟨p1, p2, p3, S', hS1, hS2, hS3⟩ :=
                sorted_take_props n scored src db.jobs hmap
              rw [← h.2.2]
              exact ⟨p1, p2, p3, S', hS1, hS2, hS3⟩
        | false =>
            simp only [hembv, Bool.false_eq_true, if_false] at h
            rcases hes : embed_and_store_candidate env db c
              with ⟨db1, n1, u | ov⟩
            · simp only [hes] at h
              simp at h
            · simp only [hes] at h
              cases hid : c.id with
              | none =>
                  simp only [hid] at h
                  simp at h
              | some i =>
                  simp only [hid, hcfv, Bool.false_eq_true, if_false] at h
                  rcases hsj : scoreJobs env db1 (findCandById db1 i)
                    (sourceFilter src db1.jobs)
                    with ⟨db2, n2, u | scored⟩
                  · simp only [hsj] at h
                    simp at h
                  · simp only [hsj] at h
                    simp only [Prod.mk.injEq, Except.ok.injEq] at h
                    have hjobs := embed_store_cand_jobs env db c db1 n1
                      _ hes
                    have hmap := scoreJobs_ok_map_fst env _ db1
                      (findCandById db1 i) db2 n2 scored hsj
                    rw [hjobs] at hmap
                    obtain ⟨p1, p2, p3, S', hS1, hS2, hS3⟩ :=
                      sorted_take_props n scored src db.jobs hmap
                    rw [← h.2.2]
                    exact ⟨p1, p2, p3, S', hS1, hS2, hS3⟩

theorem C5_witness :
    find_matching_jobs_for_candidate envOk ⟨[], []⟩ "e" 5 none
      = (⟨[], []⟩, 0, Except.ok []) :=
  (C5_find_jobs envOk ⟨[], []⟩ "e" 5 none).1 rfl rfl

theorem C7_witness :
    ∃ pct matching missing recs,
      analyze_skill_gaps envOk
        ⟨[{ baseCand with
            email := "c@x", skills := [⟨"Python", 70⟩] }],
         [{ baseJob with
            id := some 1, title := "T",
            required_skills := ["Python", "SQL"] }]⟩
        "c@x" "000000000000000000000001"
      = .ok (.report "T" pct matching missing
          (gapReqSkills { baseJob with
            id := some 1, title := "T",
            required_skills := ["Python", "SQL"] }).dedup.length recs) := by
  obtain ⟨pct, m, ms, r, heq, -⟩ := C7_skill_gaps.1 envOk
    ⟨[{ baseCand with
        email := "c@x", skills := [⟨"Python", 70⟩] }],
     [{ baseJob with
        id := some 1, title := "T",
        required_skills := ["Python", "SQL"] }]⟩
    "c@x" "000000000000000000000001"
    { baseCand with email := "c@x", skills := [⟨"Python", 70⟩] }
    { baseJob with
      id := some 1, title := "T", required_skills := ["Python", "SQL"] }
    1 rfl rfl rfl (by decide) rfl
  exact ⟨pct, m, ms, r, heq⟩
